import Mathlib

/-!
Verification of the `ai_auto_commit` diff-to-commit-message pipeline.

Text is modelled as `List Char` (Python `str`), integers as `Int` (Python `int`),
counts as `Nat`.  The process-wide token-budget ledger (`token_budget.py`) is
modelled by explicit state passing of the `spent` counter together with the
configured `ceiling`.  The external tiktoken token counter is kept abstract as a
parameter `tl : List Char → Nat` wherever possible; a concrete model
(`modelTokenLen`) is provided for evaluation.  All definitions are structurally
recursive so that concrete inputs evaluate inside the kernel.
-/

namespace AiAutoCommit

/-! ## Generic string helpers (Python `str` methods over `List Char`) -/

/-- Python `str.strip()` (whitespace at both ends removed). -/
def stripL (s : List Char) : List Char :=
  ((s.dropWhile Char.isWhitespace).reverse.dropWhile Char.isWhitespace).reverse

/-- Python `str.strip(ch)` for a single character `ch`. -/
def stripChar (ch : Char) (s : List Char) : List Char :=
  ((s.dropWhile (· == ch)).reverse.dropWhile (· == ch)).reverse

/-- Python `str.split(sep)` for a one-character separator `sep`. -/
def splitOnChar (sep : Char) : List Char → List (List Char)
  | [] => [[]]
  | c :: rest =>
    if c == sep then [] :: splitOnChar sep rest
    else
      match splitOnChar sep rest with
      | [] => [[c]]
      | p :: ps => (c :: p) :: ps

/-- Python `line.split('\t')`. -/
def splitTabs (s : List Char) : List (List Char) := splitOnChar '\t' s

/-- Python `str.splitlines()` restricted to `'\n'` separators (the only line
terminator occurring in the git outputs this program parses). -/
def splitlinesL (s : List Char) : List (List Char) :=
  if s.isEmpty then []
  else
    let parts := splitOnChar '\n' s
    if (parts.getLastD ['x']).isEmpty then parts.dropLast else parts

/-- Python `str.lower()` (ASCII case folding, sufficient for model ids/paths). -/
def toLowerL (s : List Char) : List Char := s.map Char.toLower

/-- Python `pat in s` substring test. -/
def isSubstrOf (pat : List Char) : List Char → Bool
  | [] => pat.isEmpty
  | c :: rest => pat.isPrefixOf (c :: rest) || isSubstrOf pat rest

/-- Python `s.endswith(pat)`. -/
def endsWith (pat s : List Char) : Bool := pat.isSuffixOf s

/-- Python `str.isdigit()` (ASCII digits; the inputs here are git numstat
counts). -/
def isDigitStr (s : List Char) : Bool := !s.isEmpty && s.all Char.isDigit

/-- Python `int(s)` for a digit string. -/
def natOfDigits (s : List Char) : Nat := s.foldl (fun a c => a * 10 + (c.toNat - 48)) 0

/-- Decimal rendering of a natural number (Python `str(n)`). -/
def natRepr (n : Nat) : List Char := Nat.toDigits 10 n

/-- Helper for `commaRepr`: walks the reversed digit list inserting a comma
before every fourth, seventh, ... digit. -/
def commaRevAux : List Char → Nat → List Char
  | [], _ => []
  | c :: rest, k => if k == 3 then ',' :: c :: commaRevAux rest 1 else c :: commaRevAux rest (k + 1)

/-- Python `f"{n:,}"` thousands-separated rendering of a natural number. -/
def commaRepr (n : Nat) : List Char := (commaRevAux (natRepr n).reverse 0).reverse

/-- Python `"\n".join(xs)`. -/
def joinNL (xs : List (List Char)) : List Char := (xs.intersperse ['\n']).flatten

/-- Insertion-ordered dict update `d[k] = v` (existing key keeps its slot). -/
def dictInsert {α : Type} (k : List Char) (v : α) : List (List Char × α) → List (List Char × α)
  | [] => [(k, v)]
  | (k0, v0) :: rest => if k0 == k then (k0, v) :: rest else (k0, v0) :: dictInsert k v rest

/-- Python `d.get(k, dflt)` on an insertion-ordered dict. -/
def dictGetD {α : Type} (m : List (List Char × α)) (k : List Char) (dflt : α) : α :=
  match m.find? (fun kv => kv.1 == k) with
  | some kv => kv.2
  | none => dflt

/-! ## Token Budget Ledger (`token_budget.py`)

The Python module keeps `_tokens_spent : int` as process-global state guarded by
a lock and reads the ceiling from config.  Here `spent` and `ceiling` are
explicit arguments; each operation returns its result together with the new
`spent` value. -/

/-- `try_reserve_tokens(needed)`: atomically check + reserve; returns `false`
and leaves `spent` unchanged whenever the reservation would exceed the
ceiling. -/
def try_reserve_tokens (needed ceiling spent : Int) : Bool × Int :=
  if spent + needed > ceiling then (false, spent) else (true, spent + needed)

/-- `reserve_tokens_soft(needed)`: reserve without enforcing the budget; always
succeeds. -/
def reserve_tokens_soft (needed spent : Int) : Bool × Int :=
  (true, spent + needed)

/-- `is_over_budget()`: current usage strictly exceeds the configured budget. -/
def is_over_budget (ceiling spent : Int) : Bool := decide (ceiling < spent)

/-- `refund_tokens(count)`: return tokens to the pool, floored at 0. -/
def refund_tokens (count spent : Int) : Int := max 0 (spent - count)

/-- The `spent` values observed after each call of a sequence of
`try_reserve_tokens` requests. -/
def reserveStates (ceiling : Int) : List Int → Int → List Int
  | [], _ => []
  | n :: rest, spent =>
    let s2 := (try_reserve_tokens n ceiling spent).2
    s2 :: reserveStates ceiling rest s2

/-- Tail of `split_and_summarize_diff` (large_diff_handler.py lines 430-435):
after the final message is produced, a warning is printed when the soft ceiling
was exceeded, and the message is returned either way.  The second component
records whether the warning is emitted. -/
def split_and_summarize_epilogue (msg : List Char) (ceiling spent : Int) : List Char × Bool :=
  (msg, is_over_budget ceiling spent)

/-! ## Diff Segmenter (`commit_generation.split_diff_by_file`)

Python's `diff.split("diff --git ")` is modelled by `splitOnL`, a leftmost,
non-overlapping split on a multi-character separator, implemented with a length
fuel so that it is structurally recursive. -/

/-- Index of the first occurrence of `sep` in `s`, if any. -/
def findOcc (sep : List Char) : List Char → Option Nat
  | [] => none
  | c :: rest =>
    if sep.isPrefixOf (c :: rest) then some 0
    else (findOcc sep rest).map (· + 1)

/-- Fueled worker for `splitOnL`; correct whenever `s.length ≤ fuel`. -/
def splitOnLAux (sep : List Char) : Nat → List Char → List (List Char)
  | 0, s => [s]
  | fuel + 1, s =>
    match findOcc sep s with
    | none => [s]
    | some i => s.take i :: splitOnLAux sep fuel (s.drop (i + sep.length))

/-- Python `s.split(sep)` for a non-empty multi-character separator. -/
def splitOnL (sep s : List Char) : List (List Char) := splitOnLAux sep s.length s

/-- The per-file header token of unified diffs. -/
def CHUNK_HEADER : List Char := ("diff --git ").toList

/-- `split_diff_by_file(diff)`: split on the header, drop the preamble before
the first header, and re-attach the header to every remaining part. -/
def split_diff_by_file (diff : List Char) : List (List Char) :=
  ((splitOnL CHUNK_HEADER diff).drop 1).map (fun p => CHUNK_HEADER ++ p)

/-- The text before the first per-file header (discarded by
`split_diff_by_file`). -/
def split_preamble (diff : List Char) : List Char :=
  (splitOnL CHUNK_HEADER diff).headD []

/-- Number of positions of `s` at which `sep` occurs. -/
def countOcc (sep s : List Char) : Nat :=
  (List.range s.length).countP (fun j => sep.isPrefixOf (s.drop j))

/-- `sep` has no proper non-empty suffix that is also one of its prefixes
(occurrences of such a separator can never overlap). -/
def borderFree (sep : List Char) : Prop :=
  ∀ d, d < sep.length → 0 < d → ¬ (sep.drop d <+: sep)

/-! ## Context-Limit Resolver (`large_diff_handler.py`) -/

/-- The static model → context-window table, in source (insertion) order. -/
def MODEL_CONTEXT_LIMITS : List (List Char × Int) :=
  [ (("gpt-4o").toList, 128000)
  , (("gpt-4o-mini").toList, 128000)
  , (("gpt-4-turbo").toList, 128000)
  , (("gpt-4").toList, 8192)
  , (("gpt-3.5-turbo").toList, 16385)
  , (("o1").toList, 200000)
  , (("o1-mini").toList, 128000)
  , (("o1-preview").toList, 128000)
  , (("o3-mini").toList, 200000)
  , (("claude-3-5-sonnet-20241022").toList, 200000)
  , (("claude-3-5-haiku-20241022").toList, 200000)
  , (("claude-3-opus-20240229").toList, 200000)
  , (("claude-3-sonnet-20240229").toList, 200000)
  , (("claude-3-haiku-20240307").toList, 200000)
  , (("gemini-pro").toList, 32000)
  , (("gemini-1.5-pro").toList, 1000000)
  , (("gemini-1.5-flash").toList, 1000000)
  , (("gemini-2.0-flash").toList, 1000000)
  , (("gemini-3-flash-preview").toList, 1000000)
  , (("mistral-large").toList, 128000)
  , (("mistral-medium").toList, 32000)
  , (("mistral-small").toList, 32000)
  , (("codestral").toList, 32000)
  , (("devstral").toList, 128000)
  , (("deepseek-chat").toList, 64000)
  , (("deepseek-coder").toList, 64000)
  , (("grok-2").toList, 128000)
  , (("llama-3-70b").toList, 8192)
  , (("llama-3-8b").toList, 8192)
  , (("llama-3.1-405b").toList, 128000)
  , (("llama-3.1-70b").toList, 128000)
  , (("qwen-turbo").toList, 8000)
  , (("qwen-plus").toList, 32000)
  , (("qwen-max").toList, 32000) ]

/-- Default context limit for unknown models. -/
def DEFAULT_CONTEXT_LIMIT : Int := 8000

/-- Tokens reserved for system prompt and response. -/
def RESERVED_TOKENS : Int := 2000

/-- Exact (case-sensitive) lookup `model_name in MODEL_CONTEXT_LIMITS`. -/
def exactLimitLookup (model_name : List Char) : List (List Char × Int) → Option Int
  | [] => none
  | (k, v) :: rest => if k == model_name then some v else exactLimitLookup model_name rest

/-- The case-insensitive loop over the table: first entry whose lowered key is
a prefix of, or contained in, the lowered model name wins. -/
def prefixSubstrLookup (model_lower : List Char) : List (List Char × Int) → Option Int
  | [] => none
  | (k, v) :: rest =>
    if (toLowerL k).isPrefixOf model_lower then some v
    else if isSubstrOf (toLowerL k) model_lower then some v
    else prefixSubstrLookup model_lower rest

/-- Family inference from name fragments (the chain of `in model_lower` tests). -/
def familyLimit (model_lower : List Char) : Int :=
  if isSubstrOf (("gpt-4").toList) model_lower then 128000
  else if isSubstrOf (("gpt-3").toList) model_lower then 16385
  else if isSubstrOf (("claude").toList) model_lower then 200000
  else if isSubstrOf (("gemini").toList) model_lower then 32000
  else if isSubstrOf (("mistral").toList) model_lower then 32000
  else if isSubstrOf (("deepseek").toList) model_lower then 64000
  else if isSubstrOf (("grok").toList) model_lower then 128000
  else if isSubstrOf (("llama").toList) model_lower then 8192
  else if isSubstrOf (("qwen").toList) model_lower then 8000
  else DEFAULT_CONTEXT_LIMIT

/-- `get_model_context_limit(model_name)`: exact match, then prefix/substring
match, then family inference, then the default. -/
def get_model_context_limit (model_name : List Char) : Int :=
  match exactLimitLookup model_name MODEL_CONTEXT_LIMITS with
  | some v => v
  | none =>
    let model_lower := toLowerL model_name
    match prefixSubstrLookup model_lower MODEL_CONTEXT_LIMITS with
    | some v => v
    | none => familyLimit model_lower

/-- `get_effective_token_limit(model_name)`: context limit minus the reserved
tokens. -/
def get_effective_token_limit (model_name : List Char) : Int :=
  get_model_context_limit model_name - RESERVED_TOKENS

/-! ## Token estimation -/

/-- Modelled from the spec: the token estimator (`token_utils.token_len`,
backed by the external tiktoken dependency) is "a fixed approximate tokenizer"
(any consistent subword tokenizer is acceptable).  Following the source's own
4-characters-per-token approximation, it is modelled as `⌈length / 4⌉`.
Theorems quantify over an arbitrary estimator whenever possible. -/
def modelTokenLen (s : List Char) : Nat := (s.length + 3) / 4

/-- `llm_client.get_token_usage(model, prompt, response)`: tokenizer estimates
for prompt and completion. -/
def get_token_usage (tl : List Char → Nat) (prompt response : List Char) : Nat × Nat :=
  (tl prompt, tl response)

/-! ## Truncation (`large_diff_handler.truncate_diff_to_limit`) -/

/-- The fixed string whose token count is budgeted for the truncation notice. -/
def truncNoticeTemplate : List Char :=
  ("\n\n[... Diff truncated due to token limit ...]").toList

/-- The `for chunk in chunks` accumulation loop: keep whole chunks while they
fit, then possibly one character-proportional cut of the next chunk, then
stop. -/
def truncChunksAccum (tl : List Char → Nat) (available : Int) :
    List (List Char) → Int → List (List Char)
  | [], _ => []
  | chunk :: rest, total =>
    let chunk_tokens : Int := (tl chunk : Int)
    if total + chunk_tokens ≤ available then
      chunk :: truncChunksAccum tl available rest (total + chunk_tokens)
    else
      let remaining := available - total
      if remaining > 100 then
        let char_limit := remaining * 4
        let cutChunk := chunk.take char_limit.toNat
        let last_newline : Int :=
          match cutChunk.reverse.findIdx? (· == '\n') with
          | none => -1
          | some j => ((cutChunk.length - 1 - j : Nat) : Int)
        let cutChunk :=
          if last_newline > (cutChunk.length : Int) / 2 then cutChunk.take last_newline.toNat
          else cutChunk
        [cutChunk]
      else []

/-- The interpolated truncation notice appended to the truncated diff. -/
def noticeText (files_included files_total tokens_included tokens_total : Nat) : List Char :=
  ("\n\n[... Diff truncated: showing ").toList ++ natRepr files_included
    ++ ("/").toList ++ natRepr files_total ++ (" files (").toList
    ++ commaRepr tokens_included ++ ("/").toList ++ commaRepr tokens_total
    ++ (" tokens) ...]").toList

/-- `truncate_diff_to_limit(diff, token_limit)`: cut at file boundaries when
possible, fall back to a character-proportional cut, and append the truncation
notice. -/
def truncate_diff_to_limit (tl : List Char → Nat) (diff : List Char) (token_limit : Int) :
    List Char :=
  let current_tokens := tl diff
  if (current_tokens : Int) ≤ token_limit then diff
  else
    let chunks := split_diff_by_file diff
    let available_tokens : Int := token_limit - (tl truncNoticeTemplate : Int)
    let truncated_chunks := truncChunksAccum tl available_tokens chunks 0
    let truncated_diff := truncated_chunks.flatten
    truncated_diff ++
      noticeText truncated_chunks.length chunks.length (tl truncated_diff) current_tokens

/-! ## Heuristic Summarizer (`heuristic_commits.py`) -/

/-- One line of `git diff --cached --name-status` output, folded into the
accumulated `{path: status}` dict.  `none` models the `IndexError` Python
raises on `status[0]` when a line has a second tab field but an empty status
field. -/
def nameStatusLine (acc : List (List Char × Char)) (line : List Char) :
    Option (List (List Char × Char)) :=
  if (stripL line).isEmpty then some acc
  else
    match splitTabs line with
    | [] => some acc
    | p0 :: ps =>
      match stripL p0, ps with
      | 'R' :: _, _ :: p2 :: _ => some (dictInsert (stripL p2) 'R' acc)
      | 'R' :: _, _ => some acc
      | 'C' :: _, _ :: p2 :: _ => some (dictInsert (stripL p2) 'C' acc)
      | 'C' :: _, _ => some acc
      | s0 :: _, p1 :: _ => some (dictInsert (stripL p1) s0 acc)
      | _ :: _, [] => some acc
      | [], _ :: _ => none
      | [], [] => some acc

/-- Worker for `parse_name_status`. -/
def nameStatusGo : List (List Char) → List (List Char × Char) →
    Option (List (List Char × Char))
  | [], acc => some acc
  | line :: rest, acc =>
    match nameStatusLine acc line with
    | none => none
    | some acc2 => nameStatusGo rest acc2

/-- `parse_name_status(output)`: `{path: status}` in insertion order; renames
and copies are keyed by their destination path. -/
def parse_name_status (output : List Char) : Option (List (List Char × Char)) :=
  nameStatusGo (splitlinesL (stripL output)) []

/-- Python `int(s) if s.isdigit() else 0` from `parse_numstat` (the
`try/except ValueError` around it is unreachable for ASCII digit strings). -/
def pyDigitToNat (s : List Char) : Nat := if isDigitStr s then natOfDigits s else 0

/-- One line of `git diff --cached --numstat` output, folded into the
accumulated `{path: (added, deleted)}` dict. -/
def numstat_line_step (acc : List (List Char × (Nat × Nat))) (line : List Char) :
    List (List Char × (Nat × Nat)) :=
  if (stripL line).isEmpty then acc
  else
    match splitTabs line with
    | p0 :: p1 :: p2 :: _ => dictInsert p2 (pyDigitToNat p0, pyDigitToNat p1) acc
    | _ => acc

/-- `parse_numstat(output)`: `{path: (added, deleted)}`; never fails. -/
def parse_numstat (output : List Char) : List (List Char × (Nat × Nat)) :=
  (splitlinesL (stripL output)).foldl numstat_line_step []

/-- `categorize_path(path)`: rough category for scope/type heuristics. -/
def categorize_path (path : List Char) : List Char :=
  let p := toLowerL path
  if isSubstrOf (("test").toList) p || endsWith (("_test.go").toList) p
      || isSubstrOf (("/tests/").toList) p then ("test").toList
  else if [("readme").toList, ("docs/").toList, ("/doc/").toList, (".md").toList].any
      (fun seg => isSubstrOf seg p) then ("docs").toList
  else if [(".lock").toList, ("bun.lockb").toList, ("yarn.lock").toList,
      ("pnpm-lock.yaml").toList, ("package-lock.json").toList].any
      (fun ext => endsWith ext p) then ("chore").toList
  else if [("config/").toList, ("/config").toList, (".toml").toList, (".yaml").toList,
      (".yml").toList, (".json").toList].any (fun seg => isSubstrOf seg p) then
    ("chore").toList
  else ("code").toList

/-- The verb chosen from a name-status letter. -/
def statusVerb (status : Char) : List Char :=
  if status = 'A' then ("Add").toList
  else if status = 'D' then ("Remove").toList
  else if status = 'R' then ("Rename").toList
  else if status = 'C' then ("Copy").toList
  else ("Update").toList

/-- De-duplicate preserving first-seen order. -/
def dedupKeepFirst (seen : List (List Char)) : List (List Char) → List (List Char)
  | [] => []
  | b :: rest =>
    if seen.contains b then dedupKeepFirst seen rest
    else b :: dedupKeepFirst (b :: seen) rest

/-- The bullet built for one `(path, status)` entry of `build_heuristic_bullets`. -/
def heuristicBullet (file_stats : List (List Char × (Nat × Nat))) (path : List Char)
    (status : Char) : List Char :=
  let stats := dictGetD file_stats path (0, 0)
  let added := stats.1
  let deleted := stats.2
  let category := categorize_path path
  let scope := if path.contains '/' then path.takeWhile (fun c => !(c == '/')) else path
  let verb := statusVerb status
  let short_name := (splitOnChar '/' path).getLastD []
  let size_note :=
    if added ≠ 0 || deleted ≠ 0 then
      ("(+").toList ++ natRepr added ++ (" -").toList ++ natRepr deleted ++ (")").toList
    else []
  let middle :=
    if category = ("test").toList then (" tests in ").toList
    else if category = ("docs").toList then (" docs in ").toList
    else if category = ("chore").toList then (" tooling/config in ").toList
    else (" code in ").toList
  stripL (("- ").toList ++ verb ++ middle ++ scope ++ (": ").toList ++ short_name
    ++ (" ").toList ++ size_note)

/-- `build_heuristic_bullets(file_status, file_stats)`: one bullet per file in
insertion order, de-duplicated. -/
def build_heuristic_bullets (file_status : List (List Char × Char))
    (file_stats : List (List Char × (Nat × Nat))) : List (List Char) :=
  dedupKeepFirst [] (file_status.map (fun kv => heuristicBullet file_stats kv.1 kv.2))

/-- The fixed prompt header (`prompts.PROMPT_HEADER`, after `textwrap.dedent`). -/
def PROMPT_HEADER : List Char :=
  ("Your task is to help the user to generate a commit message and commit the changes using git.\n\n## Guidelines\n- DO NOT add any ads such as \"Generated with [Claude Code](https://claude.ai/code)\"\n- Only generate the message for staged files/changes\n- Don\x27t add any files using `git add`. The user will decide what to add.\n- Follow the rules below for the commit message.\n\n## Format\n```\n<type>: <message title>\n\n<summary title in one line>\n<bullet points summarizing what was updated>\n```\n\n## Example Titles\n```\nfeat(auth): add JWT login flow\nfix(ui): handle null pointer in sidebar\nrefactor(api): split user controller logic\ndocs(readme): add usage section\n```\n\n## Example with Title, Summary and Body\n```\nfeat(auth): add JWT login flow\n\nAuthentication System Enhancement\n- Implemented JWT token validation logic\n- Added documentation for the validation component\n```\n\n## Rules\n* title is lowercase, no period at the end.\n* Title should be a clear summary, max 50 characters.\n* Add a single-line summary title that captures the high-level purpose of the changes.\n* Use the body (optional) to explain *why*, not just *what*.\n* Bullet points should be concise and high-level.\n\nAvoid\n* Vague titles like: \"update\", \"fix stuff\"\n* Overly long or unfocused titles\n* Excessive detail in bullet points\n* Repeating the commit title in the summary\n\n## Allowed Types\n\n| Type     | Description                           |\n| -------- | ------------------------------------- |\n| feat     | New feature                           |\n| fix      | Bug fix                               |\n| chore    | Maintenance (e.g., tooling, deps)     |\n| docs     | Documentation changes                 |\n| refactor | Code restructure (no behavior change) |\n| test     | Adding or refactoring tests           |\n| style    | Code formatting (no logic change)     |\n| perf     | Performance improvements              |\n\n---\nBelow is the **staged diff**. Generate a commit message following the rules above:\n").toList

/-- Worker for `maxKeyFirst`: replace the current best only on a strictly
greater count. -/
def maxKeyFirstGo (bestK : List Char) (bestV : Nat) : List (List Char × Nat) → List Char
  | [] => bestK
  | (k, v) :: rest => if v > bestV then maxKeyFirstGo k v rest else maxKeyFirstGo bestK bestV rest

/-- First key (in dict insertion order) with the maximal count: Python
`max(counts.keys(), key=lambda k: counts[k])`. -/
def maxKeyFirst : List (List Char × Nat) → List Char
  | [] => []
  | (k0, v0) :: rest => maxKeyFirstGo k0 v0 rest

/-- `compose_commit_from_bullets_local(bullets)`: the deterministic local
Conventional Commit used when the API is unavailable or budgeted out. -/
def compose_commit_from_bullets_local (bullets : List (List Char)) : List Char :=
  let counts := bullets.foldl
    (fun (c : Nat × Nat × Nat × Nat) b =>
      if isSubstrOf (("tests").toList) b then (c.1 + 1, c.2.1, c.2.2.1, c.2.2.2)
      else if isSubstrOf (("docs").toList) b then (c.1, c.2.1 + 1, c.2.2.1, c.2.2.2)
      else if isSubstrOf (("tooling/config").toList) b then (c.1, c.2.1, c.2.2.1 + 1, c.2.2.2)
      else (c.1, c.2.1, c.2.2.1, c.2.2.2 + 1))
    (0, 0, 0, 0)
  let commit_type := maxKeyFirst
    [(("test").toList, counts.1), (("docs").toList, counts.2.1),
     (("chore").toList, counts.2.2.1), (("code").toList, counts.2.2.2)]
  let cc_type :=
    if commit_type = ("code").toList then ("chore").toList
    else if commit_type = ("chore").toList then ("chore").toList
    else if commit_type = ("docs").toList then ("docs").toList
    else if commit_type = ("test").toList then ("test").toList
    else ("chore").toList
  let title :=
    if commit_type = ("test").toList then ("update tests").toList
    else if commit_type = ("docs").toList then ("update docs").toList
    else if commit_type = ("chore").toList then ("maintenance updates").toList
    else ("update code").toList
  let body_lines := bullets.take 10 ++
    (if bullets.length > 10 then
      [("- and ").toList ++ natRepr (bullets.length - 10) ++ (" more changes").toList]
    else [])
  let body := joinNL body_lines
  cc_type ++ (": ").toList ++ title ++ ("\n\nSummary of changes\n").toList ++ body

/-- `compose_commit_from_bullets(bullets, model, temperature)`, with the model
invocation abstracted as `llm` and the tokenizer as `tl`.  Returns the message,
the new `spent` value, and the number of model calls made. -/
def compose_commit_from_bullets (tl : List Char → Nat) (llm : List Char → List Char)
    (bullets : List (List Char)) (ceiling spent : Int) : List Char × Int × Nat :=
  let bullets_text := joinNL (bullets.take 200)
  let prompt := PROMPT_HEADER
    ++ ("\nBelow are summarized staged changes (no raw diffs). Write the final Conventional Commit message:\n\n").toList
    ++ bullets_text
  let est_prompt := tl prompt
  let est_completion : Int := 192
  let r := try_reserve_tokens ((est_prompt : Int) + est_completion) ceiling spent
  if r.1 = false then (compose_commit_from_bullets_local bullets, r.2, 0)
  else
    let content := llm prompt
    let usage := get_token_usage tl prompt content
    let real_spent : Int := ((usage.1 + usage.2 : Nat) : Int)
    let spent2 :=
      if real_spent < (est_prompt : Int) + est_completion then
        refund_tokens ((est_prompt : Int) + est_completion - real_spent) r.2
      else r.2
    if !content.isEmpty then (stripL (stripChar '`' (stripL content)), spent2, 1)
    else (compose_commit_from_bullets_local bullets, spent2, 1)

/-! ## Retry/Fallback Controller (`generate_commit_message_with_retry`) -/

/-- Outcome of one `invoke_llm` call: a response text, or a raised exception
with its message. -/
inductive LlmOutcome where
  | ok (content : List Char)
  | err (msg : List Char)

/-- The error classification of the except-branch:
`"connection" in str(e).lower() or "timeout" in str(e).lower()`. -/
def is_network_error (e : List Char) : Bool :=
  isSubstrOf (("connection").toList) (toLowerL e) || isSubstrOf (("timeout").toList) (toLowerL e)

/-- Markdown code-fence stripping applied to a successful response. -/
def strip_code_fences (content : List Char) : List Char :=
  let commit_msg := stripL content
  let fence := ("```").toList
  if fence.isPrefixOf commit_msg && fence.isSuffixOf commit_msg then
    stripL ((commit_msg.drop 3).take (commit_msg.length - 6))
  else if fence.isPrefixOf commit_msg then stripL (commit_msg.drop 3)
  else if fence.isSuffixOf commit_msg then stripL (commit_msg.take (commit_msg.length - 3))
  else commit_msg

/-- Result of one iteration of the retry loop: either the loop returns with a
message (`done`, recording the new `spent` and whether the model was actually
invoked), or it continues with the next attempt (`again`). -/
inductive AttemptStep where
  | done (msg : List Char) (spent : Int) (invoked : Bool)
  | again (spent : Int)

/-- One iteration of the retry loop body, for a given `invoke_llm` outcome.
`is_last` is `attempt == max_retries - 1`. -/
def retry_attempt (tl : List Char → Nat) (outcome : LlmOutcome)
    (full_prompt fallback : List Char) (ceiling : Int) (is_last : Bool) (spent : Int) :
    AttemptStep :=
  let prompt_tokens := tl full_prompt
  let est_completion : Int := 192
  let est : Int := (prompt_tokens : Int) + est_completion
  let r := try_reserve_tokens est ceiling spent
  if r.1 = false then .done fallback r.2 false
  else
    match outcome with
    | .ok content =>
      let usage := get_token_usage tl full_prompt content
      let real_spent : Int := ((usage.1 + usage.2 : Nat) : Int)
      let spent2 := if real_spent < est then refund_tokens (est - real_spent) r.2 else r.2
      if !content.isEmpty then .done (strip_code_fences content) spent2 true
      else .done fallback spent2 true
    | .err _e =>
      let spent2 := refund_tokens est r.2
      if is_last then .done fallback spent2 true else .again spent2

/-- The `for attempt in range(max_retries)` loop.  `oracle` gives the outcome
of the model invocation at each attempt index; the result carries the message,
the final `spent`, and the number of model invocations performed. -/
def retryLoop (tl : List Char → Nat) (oracle : Nat → LlmOutcome)
    (full_prompt fallback : List Char) (ceiling : Int) :
    Nat → Nat → Int → List Char × Int × Nat
  | 0, _, spent => (fallback, spent, 0)
  | r + 1, attempt, spent =>
    match retry_attempt tl (oracle attempt) full_prompt fallback ceiling (r == 0) spent with
    | .done m s invoked => (m, s, if invoked then 1 else 0)
    | .again s =>
      let rest := retryLoop tl oracle full_prompt fallback ceiling r (attempt + 1) s
      (rest.1, rest.2.1, rest.2.2 + 1)

/-- `generate_commit_message_with_retry(full_prompt, model, temperature,
max_retries)`: network check first, then the retry loop. -/
def generate_commit_message_with_retry (tl : List Char → Nat) (oracle : Nat → LlmOutcome)
    (full_prompt fallback : List Char) (ceiling spent : Int) (net_ok : Bool)
    (max_retries : Nat) : List Char × Int × Nat :=
  if net_ok = false then (fallback, spent, 0)
  else retryLoop tl oracle full_prompt fallback ceiling max_retries 0 spent

/-! ## Theorems -/

/-- Helper: every state reached through a run of `try_reserve_tokens` calls
stays at or below the ceiling, as long as the start does. -/
theorem reserveStates_le_ceiling (ceiling : Int) (reqs : List Int) :
    ∀ start : Int, start ≤ ceiling → ∀ s ∈ reserveStates ceiling reqs start, s ≤ ceiling := by
  induction reqs with
  | nil => intro start _ s hs; simp [reserveStates] at hs
  | cons n rest ih =>
    intro start hstart s hs
    simp only [reserveStates, try_reserve_tokens] at hs
    by_cases hcond : start + n > ceiling
    · rw [if_pos hcond] at hs
      rcases List.mem_cons.mp hs with h | h
      · omega
      · exact ih start hstart s h
    · rw [if_neg hcond] at hs
      rcases List.mem_cons.mp hs with h | h
      · omega
      · exact ih (start + n) (by omega) s h

/-- C1: starting from a reset ledger with a fixed non-negative ceiling, every
sequence of `try_reserve_tokens(n)` calls with n ≥ 0 keeps `spent ≤ ceiling`
after every call; a call with `spent + n > ceiling` returns false and leaves
`spent` unchanged, and a call returning true increases `spent` by exactly n. -/
theorem try_reserve_tokens_hard_monotone (ceiling spent n : Int) (reqs : List Int)
    (hceil : 0 ≤ ceiling) (hreqs : ∀ m ∈ reqs, 0 ≤ m) (hn : 0 ≤ n) :
    (∀ s ∈ reserveStates ceiling reqs 0, s ≤ ceiling) ∧
    (spent + n > ceiling → try_reserve_tokens n ceiling spent = (false, spent)) ∧
    ((try_reserve_tokens n ceiling spent).1 = true →
      (try_reserve_tokens n ceiling spent).2 = spent + n) := by
  refine ⟨reserveStates_le_ceiling ceiling reqs 0 hceil, ?_, ?_⟩
  · intro hover
    simp [try_reserve_tokens, if_pos hover]
  · intro htrue
    by_cases hcond : spent + n > ceiling
    · simp [try_reserve_tokens, if_pos hcond] at htrue
    · simp [try_reserve_tokens, if_neg hcond]

/-- Witness for C1 at ceiling 5, requests [3, 4, 2], spent 4, n 3. -/
theorem try_reserve_tokens_hard_monotone_witness :
    (0 ≤ (5 : Int) ∧ (∀ m ∈ ([3, 4, 2] : List Int), 0 ≤ m) ∧ 0 ≤ (3 : Int)) ∧
    ((∀ s ∈ reserveStates 5 [3, 4, 2] 0, s ≤ 5) ∧
     ((4 : Int) + 3 > 5 → try_reserve_tokens 3 5 4 = (false, 4)) ∧
     ((try_reserve_tokens 3 5 4).1 = true → (try_reserve_tokens 3 5 4).2 = 4 + 3)) :=
  ⟨⟨by decide, by decide, by decide⟩,
    try_reserve_tokens_hard_monotone 5 4 3 [3, 4, 2] (by decide) (by decide) (by decide)⟩

/-- C9: `refund_tokens(n)` sets `spent` to `max 0 (spent - n)` for every state
and count, so `spent` never becomes negative. -/
theorem refund_tokens_floor (spent count : Int) :
    refund_tokens count spent = max 0 (spent - count) ∧ 0 ≤ refund_tokens count spent :=
  ⟨rfl, le_max_left 0 _⟩

/-- C6: soft reservation succeeds unconditionally and adds exactly n, even past
the ceiling; afterwards `is_over_budget` holds iff `spent > ceiling`, and the
batched large-diff path returns its message with a warning instead of
failing. -/
theorem reserve_tokens_soft_advisory (n spent ceiling : Int) (msg : List Char)
    (hn : 0 ≤ n) :
    reserve_tokens_soft n spent = (true, spent + n) ∧
    (is_over_budget ceiling (spent + n) = true ↔ ceiling < spent + n) ∧
    (split_and_summarize_epilogue msg ceiling (spent + n)).1 = msg ∧
    (ceiling < spent + n → split_and_summarize_epilogue msg ceiling (spent + n) = (msg, true)) := by
  refine ⟨rfl, by simp [is_over_budget], rfl, ?_⟩
  intro hover
  simp [split_and_summarize_epilogue, is_over_budget, hover]

/-- Witness for C6 at n 5, spent 98, ceiling 100. -/
theorem reserve_tokens_soft_advisory_witness :
    (0 ≤ (5 : Int)) ∧
    (reserve_tokens_soft 5 98 = (true, 98 + 5) ∧
     (is_over_budget 100 (98 + 5) = true ↔ (100 : Int) < 98 + 5) ∧
     (split_and_summarize_epilogue (("m").toList) 100 (98 + 5)).1 = ("m").toList ∧
     ((100 : Int) < 98 + 5 →
       split_and_summarize_epilogue (("m").toList) 100 (98 + 5) = (("m").toList, true))) :=
  ⟨by decide, reserve_tokens_soft_advisory 5 98 100 (("m").toList) (by decide)⟩

/-- C5: context-limit resolution returns the documented default 8000 for an
unknown model, 8192 for "gpt-4", 200000 for "claude-3-5-sonnet-20241022", and
the effective limit is always the context limit minus the fixed reserve of
2000 tokens. -/
theorem context_limit_resolution :
    get_model_context_limit (("totally-unknown-model-xyz").toList) = 8000 ∧
    get_model_context_limit (("gpt-4").toList) = 8192 ∧
    get_model_context_limit (("claude-3-5-sonnet-20241022").toList) = 200000 ∧
    ∀ m : List Char, get_effective_token_limit m = get_model_context_limit m - 2000 :=
  ⟨by decide, by decide, by decide, fun _ => rfl⟩

/-- Helper: with a zero budget (`ceiling = 0`, `spent = 0`) the hard
reservation inside `compose_commit_from_bullets` always fails, so the local
deterministic composer is returned without any model call. -/
theorem compose_budget_zero (tl : List Char → Nat) (llm : List Char → List Char)
    (bullets : List (List Char)) :
    compose_commit_from_bullets tl llm bullets 0 0
      = (compose_commit_from_bullets_local bullets, 0, 0) := by
  have hfail : ∀ x : Nat, try_reserve_tokens ((x : Int) + 192) 0 0 = (false, 0) := by
    intro x
    have := Int.natCast_nonneg x
    simp only [try_reserve_tokens, if_pos (by omega : (0 : Int) + ((x : Int) + 192) > 0)]
  simp [compose_commit_from_bullets, hfail]

/-- C4 (Scenario B): parsing name-status `A\tfoo/bar.py` and numstat
`10\t0\tfoo/bar.py` and building heuristic bullets yields exactly the bullet
`- Add code in foo: bar.py (+10 -0)`; composing from that single bullet when
every hard reservation fails (budget 0) produces the local deterministic
composer's output, whose first line starts with `chore:`, with zero model
calls, for every tokenizer and every model stub. -/
theorem scenario_b_heuristic_only :
    parse_name_status (("A\tfoo/bar.py").toList) = some [((("foo/bar.py").toList), 'A')] ∧
    parse_numstat (("10\t0\tfoo/bar.py").toList) = [((("foo/bar.py").toList), (10, 0))] ∧
    build_heuristic_bullets [((("foo/bar.py").toList), 'A')]
        [((("foo/bar.py").toList), (10, 0))]
      = [("- Add code in foo: bar.py (+10 -0)").toList] ∧
    (∀ (tl : List Char → Nat) (llm : List Char → List Char),
      compose_commit_from_bullets tl llm [("- Add code in foo: bar.py (+10 -0)").toList] 0 0
        = (compose_commit_from_bullets_local [("- Add code in foo: bar.py (+10 -0)").toList],
           0, 0)) ∧
    ((("chore:").toList).isPrefixOf
      (compose_commit_from_bullets_local [("- Add code in foo: bar.py (+10 -0)").toList])
      = true) :=
  ⟨by decide, by decide, by decide, fun tl llm => compose_budget_zero tl llm _, by decide⟩

/-- C10: `parse_numstat` is a total fold over the stripped input's lines;
whitespace-only lines and lines with fewer than three tab fields are skipped,
every other line is recorded keyed by its third field with non-digit count
fields (such as git's `-` markers for binary files) mapped to 0. -/
theorem parse_numstat_total_mapping :
    (∀ output, parse_numstat output = (splitlinesL (stripL output)).foldl numstat_line_step []) ∧
    (∀ acc line, (stripL line).isEmpty = true → numstat_line_step acc line = acc) ∧
    (∀ acc line, (splitTabs line).length < 3 → numstat_line_step acc line = acc) ∧
    (∀ acc line p0 p1 p2 rest, splitTabs line = p0 :: p1 :: p2 :: rest →
      (stripL line).isEmpty = false →
      numstat_line_step acc line = dictInsert p2 (pyDigitToNat p0, pyDigitToNat p1) acc) ∧
    (∀ s, isDigitStr s = false → pyDigitToNat s = 0) ∧
    pyDigitToNat (("-").toList) = 0 ∧
    parse_numstat (("3\t14\ta/b.txt\nx\ty\n\n-\t2\tbin.png").toList)
      = [((("a/b.txt").toList), (3, 14)), ((("bin.png").toList), (0, 2))] := by
  refine ⟨fun _ => rfl, ?_, ?_, ?_, ?_, by decide, by decide⟩
  · intro acc line hblank
    simp [numstat_line_step, hblank]
  · intro acc line hlen
    by_cases hblank : (stripL line).isEmpty
    · simp [numstat_line_step, hblank]
    · rcases hsplit : splitTabs line with _ | ⟨p0, _ | ⟨p1, _ | ⟨p2, rest⟩⟩⟩ <;>
        simp_all [numstat_line_step] <;> omega
  · intro acc line p0 p1 p2 rest hsplit hblank
    simp [numstat_line_step, hblank, hsplit]
  · intro s hdig
    simp [pyDigitToNat, hdig]

/-- Witness for C10: a line with two fields is skipped. -/
theorem parse_numstat_total_mapping_witness :
    (splitTabs (("x\ty").toList)).length < 3 ∧
    numstat_line_step [] (("x\ty").toList) = [] :=
  ⟨by decide, parse_numstat_total_mapping.2.2.1 [] (("x\ty").toList) (by decide)⟩

/-- Helper: the truncation marker sits inside the interpolated notice. -/
theorem marker_infix_notice (pre : List Char) (a b c d : Nat) :
    (("Diff truncated").toList) <:+: pre ++ noticeText a b c d := by
  refine ⟨pre ++ ("\n\n[... ").toList,
    (": showing ").toList ++ natRepr a ++ ("/").toList ++ natRepr b ++ (" files (").toList
      ++ commaRepr c ++ ("/").toList ++ commaRepr d ++ (" tokens) ...]").toList, ?_⟩
  have hdec : ("\n\n[... ").toList ++ ("Diff truncated").toList ++ (": showing ").toList
      = ("\n\n[... Diff truncated: showing ").toList := by decide
  simp only [noticeText, ← hdec, List.append_assoc]

/-- C2 (amended): whenever the limit is below the diff's token count, the
output of `truncate_diff_to_limit` contains the truncation-notice marker (for
every token estimator); the bound `tokenCount(output) ≤ limit` does not hold in
general (see the counterexample). -/
theorem truncate_diff_notice_marker (tl : List Char → Nat) (diff : List Char)
    (token_limit : Int) (h : token_limit < (tl diff : Int)) :
    (("Diff truncated").toList) <:+: truncate_diff_to_limit tl diff token_limit := by
  simp only [truncate_diff_to_limit]
  rw [if_neg (show ¬((tl diff : Int) ≤ token_limit) by omega)]
  exact marker_infix_notice _ _ _ _ _

/-- Witness for the amended C2 at a one-file diff and limit 0. -/
theorem truncate_diff_notice_marker_witness :
    (("Diff truncated").toList) <:+:
      truncate_diff_to_limit modelTokenLen (("diff --git a/a b/a\n+x").toList) 0 :=
  truncate_diff_notice_marker modelTokenLen (("diff --git a/a b/a\n+x").toList) 0 (by decide)

/-- C2 counterexample: at `limit = 0 < tokenCount(diff)` the output consists of
the appended truncation notice, whose token count is positive, so the claimed
bound `tokenCount(output) ≤ limit` fails. -/
theorem truncate_diff_token_bound_counterexample :
    (0 : Int) < (modelTokenLen (("diff --git a/a b/a\n+x").toList) : Int) ∧
    ¬ (((("Diff truncated").toList) <:+:
          truncate_diff_to_limit modelTokenLen (("diff --git a/a b/a\n+x").toList) 0) ∧
        (modelTokenLen (truncate_diff_to_limit modelTokenLen
            (("diff --git a/a b/a\n+x").toList) 0) : Int) ≤ 0) :=
  ⟨by decide, fun hc => absurd hc.2 (by decide)⟩

/-- Helper: when the reservation fits, a failed invocation refunds its full
reservation, leaving `spent` exactly where it was before the attempt; the loop
then continues (or falls back, on the last attempt). -/
theorem retry_attempt_err (tl : List Char → Nat) (full_prompt fallback e : List Char)
    (ceiling : Int) (is_last : Bool) (spent : Int) (h0 : 0 ≤ spent)
    (hres : spent + ((tl full_prompt : Int) + 192) ≤ ceiling) :
    retry_attempt tl (.err e) full_prompt fallback ceiling is_last spent
      = if is_last then .done fallback spent true else .again spent := by
  simp only [retry_attempt, try_reserve_tokens, refund_tokens]
  rw [if_neg (show ¬(spent + ((tl full_prompt : Int) + 192) > ceiling) by omega)]
  have hmax : (0 : Int) ⊔ spent = spent := max_eq_right h0
  simp [hmax]

/-- Helper: when the reservation fits and the response is non-empty, a
successful invocation leaves `spent` trued-up to the estimated usage capped by
the reservation. -/
theorem retry_attempt_ok (tl : List Char → Nat) (full_prompt fallback content : List Char)
    (ceiling : Int) (is_last : Bool) (spent : Int) (h0 : 0 ≤ spent)
    (hres : spent + ((tl full_prompt : Int) + 192) ≤ ceiling) (hc : content ≠ []) :
    retry_attempt tl (.ok content) full_prompt fallback ceiling is_last spent
      = .done (strip_code_fences content)
          (spent + (tl full_prompt : Int) + min 192 (tl content : Int)) true := by
  have hne : content.isEmpty = false := by
    cases content with
    | nil => exact absurd rfl hc
    | cons a l => rfl
  simp only [retry_attempt, try_reserve_tokens, refund_tokens, get_token_usage]
  rw [if_neg (show ¬(spent + ((tl full_prompt : Int) + 192) > ceiling) by omega)]
  by_cases hlt : ((tl full_prompt + tl content : Nat) : Int) < (tl full_prompt : Int) + 192
  · simp [AttemptStep.done.injEq, hne, hlt]
    push_cast at hlt ⊢
    omega
  · simp [AttemptStep.done.injEq, hne, hlt]
    push_cast at hlt ⊢
    omega

theorem retryLoop_succ_done (tl : List Char → Nat) (oracle : Nat → LlmOutcome)
    (full_prompt fallback : List Char) (ceiling : Int) (r attempt : Nat) (spent : Int)
    (m : List Char) (s : Int) (invoked : Bool)
    (h : retry_attempt tl (oracle attempt) full_prompt fallback ceiling (r == 0) spent
      = .done m s invoked) :
    retryLoop tl oracle full_prompt fallback ceiling (r + 1) attempt spent
      = (m, s, if invoked then 1 else 0) := by
  simp only [retryLoop, h]

theorem retryLoop_succ_again (tl : List Char → Nat) (oracle : Nat → LlmOutcome)
    (full_prompt fallback : List Char) (ceiling : Int) (r attempt : Nat) (spent s2 : Int)
    (h : retry_attempt tl (oracle attempt) full_prompt fallback ceiling (r == 0) spent
      = .again s2) :
    retryLoop tl oracle full_prompt fallback ceiling (r + 1) attempt spent
      = ((retryLoop tl oracle full_prompt fallback ceiling r (attempt + 1) s2).1,
         (retryLoop tl oracle full_prompt fallback ceiling r (attempt + 1) s2).2.1,
         (retryLoop tl oracle full_prompt fallback ceiling r (attempt + 1) s2).2.2 + 1) := by
  simp only [retryLoop, h]

/-- C7: in the retrying single-shot path, every attempt whose invocation
raises has its full reservation refunded, so `spent` after a failed attempt
equals its value before that attempt's reservation; when two attempts fail and
the third succeeds, the final `spent` reflects only the successful call's
trued-up usage. -/
theorem retry_refund_atomicity (tl : List Char → Nat) (oracle : Nat → LlmOutcome)
    (full_prompt fallback content e0 e1 : List Char) (ceiling spent : Int)
    (h0 : 0 ≤ spent) (hres : spent + ((tl full_prompt : Int) + 192) ≤ ceiling)
    (ho0 : oracle 0 = .err e0) (ho1 : oracle 1 = .err e1) (ho2 : oracle 2 = .ok content)
    (hc : content ≠ []) :
    (∀ (e : List Char) (is_last : Bool) (s : Int), 0 ≤ s →
        s + ((tl full_prompt : Int) + 192) ≤ ceiling →
        retry_attempt tl (.err e) full_prompt fallback ceiling is_last s
          = if is_last then .done fallback s true else .again s) ∧
    generate_commit_message_with_retry tl oracle full_prompt fallback ceiling spent true 3
      = (strip_code_fences content,
         spent + (tl full_prompt : Int) + min 192 (tl content : Int), 3) := by
  refine ⟨fun e il s hs hr => retry_attempt_err tl full_prompt fallback e ceiling il s hs hr,
    ?_⟩
  have ha0 : retry_attempt tl (oracle 0) full_prompt fallback ceiling ((2 : Nat) == 0) spent
      = .again spent := by
    rw [ho0, retry_attempt_err tl full_prompt fallback e0 ceiling ((2 : Nat) == 0) spent h0 hres]
    rw [if_neg (by decide)]
  have ha1 : retry_attempt tl (oracle 1) full_prompt fallback ceiling ((1 : Nat) == 0) spent
      = .again spent := by
    rw [ho1, retry_attempt_err tl full_prompt fallback e1 ceiling ((1 : Nat) == 0) spent h0 hres]
    rw [if_neg (by decide)]
  have ha2 : retry_attempt tl (oracle 2) full_prompt fallback ceiling ((0 : Nat) == 0) spent
      = .done (strip_code_fences content)
          (spent + (tl full_prompt : Int) + min 192 (tl content : Int)) true := by
    rw [ho2]
    exact retry_attempt_ok tl full_prompt fallback content ceiling ((0 : Nat) == 0) spent
      h0 hres hc
  have e1' : retryLoop tl oracle full_prompt fallback ceiling 1 2 spent
      = (strip_code_fences content,
         spent + (tl full_prompt : Int) + min 192 (tl content : Int), 1) := by
    rw [show (1 : Nat) = 0 + 1 from rfl,
      retryLoop_succ_done tl oracle full_prompt fallback ceiling 0 2 spent _ _ _ ha2]
    rfl
  have e2' : retryLoop tl oracle full_prompt fallback ceiling 2 1 spent
      = (strip_code_fences content,
         spent + (tl full_prompt : Int) + min 192 (tl content : Int), 2) := by
    rw [show (2 : Nat) = 1 + 1 from rfl,
      retryLoop_succ_again tl oracle full_prompt fallback ceiling 1 1 spent spent ha1, e1']
  have e3' : retryLoop tl oracle full_prompt fallback ceiling 3 0 spent
      = (strip_code_fences content,
         spent + (tl full_prompt : Int) + min 192 (tl content : Int), 3) := by
    rw [show (3 : Nat) = 2 + 1 from rfl,
      retryLoop_succ_again tl oracle full_prompt fallback ceiling 2 0 spent spent ha0, e2']
  simpa [generate_commit_message_with_retry] using e3'

/-- Witness for C7 with the model tokenizer, a prompt of one character, errors
on the first two attempts and a successful third attempt. -/
theorem retry_refund_atomicity_witness :
    (∀ (e : List Char) (is_last : Bool) (s : Int), 0 ≤ s →
        s + ((modelTokenLen (("p").toList) : Int) + 192) ≤ 1000 →
        retry_attempt modelTokenLen (.err e) (("p").toList) (("fb").toList) 1000 is_last s
          = if is_last then .done (("fb").toList) s true else .again s) ∧
    generate_commit_message_with_retry modelTokenLen
        (fun n => if n < 2 then .err (("connection reset").toList)
          else .ok (("feat: x\n\nbody").toList))
        (("p").toList) (("fb").toList) 1000 0 true 3
      = (strip_code_fences (("feat: x\n\nbody").toList),
         0 + (modelTokenLen (("p").toList) : Int)
           + min 192 (modelTokenLen (("feat: x\n\nbody").toList) : Int), 3) :=
  retry_refund_atomicity modelTokenLen
    (fun n => if n < 2 then .err (("connection reset").toList)
      else .ok (("feat: x\n\nbody").toList))
    (("p").toList) (("fb").toList) (("feat: x\n\nbody").toList)
    (("connection reset").toList) (("connection reset").toList) 1000 0
    (by decide) (by decide) rfl rfl rfl (by decide)

/-- C8 (amended): the retry controller retries every invocation failure —
whether or not it is classified as a network/timeout error — with exponential
backoff up to the fixed cap of 3 attempts, and only then falls back; the
classification affects only the printed label.  With an always-failing model
the run performs exactly 3 invocations, returns the fallback message and
restores `spent`. -/
theorem retry_all_errors_retried (tl : List Char → Nat) (oracle : Nat → LlmOutcome)
    (full_prompt fallback e : List Char) (ceiling spent : Int)
    (h0 : 0 ≤ spent) (hres : spent + ((tl full_prompt : Int) + 192) ≤ ceiling)
    (ho : ∀ k, oracle k = .err e) :
    generate_commit_message_with_retry tl oracle full_prompt fallback ceiling spent true 3
      = (fallback, spent, 3) := by
  have ha0 : retry_attempt tl (oracle 0) full_prompt fallback ceiling ((2 : Nat) == 0) spent
      = .again spent := by
    rw [ho 0, retry_attempt_err tl full_prompt fallback e ceiling ((2 : Nat) == 0) spent h0 hres]
    rw [if_neg (by decide)]
  have ha1 : retry_attempt tl (oracle 1) full_prompt fallback ceiling ((1 : Nat) == 0) spent
      = .again spent := by
    rw [ho 1, retry_attempt_err tl full_prompt fallback e ceiling ((1 : Nat) == 0) spent h0 hres]
    rw [if_neg (by decide)]
  have ha2 : retry_attempt tl (oracle 2) full_prompt fallback ceiling ((0 : Nat) == 0) spent
      = .done fallback spent true := by
    rw [ho 2, retry_attempt_err tl full_prompt fallback e ceiling ((0 : Nat) == 0) spent h0 hres]
    rw [if_pos (by decide)]
  have e1' : retryLoop tl oracle full_prompt fallback ceiling 1 2 spent
      = (fallback, spent, 1) := by
    rw [show (1 : Nat) = 0 + 1 from rfl,
      retryLoop_succ_done tl oracle full_prompt fallback ceiling 0 2 spent _ _ _ ha2]
    rfl
  have e2' : retryLoop tl oracle full_prompt fallback ceiling 2 1 spent
      = (fallback, spent, 2) := by
    rw [show (2 : Nat) = 1 + 1 from rfl,
      retryLoop_succ_again tl oracle full_prompt fallback ceiling 1 1 spent spent ha1, e1']
  have e3' : retryLoop tl oracle full_prompt fallback ceiling 3 0 spent
      = (fallback, spent, 3) := by
    rw [show (3 : Nat) = 2 + 1 from rfl,
      retryLoop_succ_again tl oracle full_prompt fallback ceiling 2 0 spent spent ha0, e2']
  simpa [generate_commit_message_with_retry] using e3'

/-- Witness for the amended C8 with an always-failing non-network error. -/
theorem retry_all_errors_retried_witness :
    generate_commit_message_with_retry modelTokenLen (fun _ => .err (("boom").toList))
        (("p").toList) (("fb").toList) 1000 0 true 3
      = ((("fb").toList), 0, 3) :=
  retry_all_errors_retried modelTokenLen (fun _ => .err (("boom").toList))
    (("p").toList) (("fb").toList) (("boom").toList) 1000 0
    (by decide) (by decide) (fun _ => rfl)

/-- C8 counterexample: `"boom"` is classified as non-retryable (not a
network/timeout error), yet the code still performs all 3 invocations instead
of failing fast to the fallback after the first attempt. -/
theorem retry_fail_fast_counterexample :
    is_network_error (("boom").toList) = false ∧
    (generate_commit_message_with_retry modelTokenLen (fun _ => .err (("boom").toList))
        (("p").toList) (("fb").toList) 1000 0 true 3).2.2 = 3 ∧
    (generate_commit_message_with_retry modelTokenLen (fun _ => .err (("boom").toList))
        (("p").toList) (("fb").toList) 1000 0 true 3).2.2 ≠ 1 :=
  ⟨by decide, by decide, by decide⟩

/-! ### Properties of `findOcc`, `countOcc` and `splitOnL` -/

theorem findOcc_none_no_occ (sep : List Char) (hsep : sep ≠ []) :
    ∀ s : List Char, findOcc sep s = none → ∀ j, sep.isPrefixOf (s.drop j) = false := by
  intro s
  induction s with
  | nil =>
    intro _ j
    rw [List.drop_nil]
    cases sep with
    | nil => exact absurd rfl hsep
    | cons a as => rfl
  | cons c rest ih =>
    intro h j
    rw [findOcc] at h
    cases hb : sep.isPrefixOf (c :: rest) with
    | true => rw [hb] at h; simp at h
    | false =>
      rw [hb] at h
      simp at h
      cases j with
      | zero => rw [List.drop_zero]; exact hb
      | succ j => rw [List.drop_succ_cons]; exact ih h j

theorem findOcc_some_occ (sep : List Char) :
    ∀ (s : List Char) (i : Nat), findOcc sep s = some i →
      sep.isPrefixOf (s.drop i) = true := by
  intro s
  induction s with
  | nil => intro i h; simp [findOcc] at h
  | cons c rest ih =>
    intro i h
    rw [findOcc] at h
    cases hb : sep.isPrefixOf (c :: rest) with
    | true =>
      rw [hb] at h
      simp at h
      subst h
      rw [List.drop_zero]
      exact hb
    | false =>
      rw [hb] at h
      simp at h
      obtain ⟨a, ha, rfl⟩ := h
      rw [List.drop_succ_cons]
      exact ih a ha

theorem findOcc_some_min (sep : List Char) :
    ∀ (s : List Char) (i : Nat), findOcc sep s = some i →
      ∀ j, j < i → sep.isPrefixOf (s.drop j) = false := by
  intro s
  induction s with
  | nil => intro i h; simp [findOcc] at h
  | cons c rest ih =>
    intro i h j hj
    rw [findOcc] at h
    cases hb : sep.isPrefixOf (c :: rest) with
    | true => rw [hb] at h; simp at h; omega
    | false =>
      rw [hb] at h
      simp at h
      obtain ⟨a, ha, rfl⟩ := h
      cases j with
      | zero => rw [List.drop_zero]; exact hb
      | succ j => rw [List.drop_succ_cons]; exact ih a ha j (by omega)

theorem findOcc_some_lt (sep : List Char) :
    ∀ (s : List Char) (i : Nat), findOcc sep s = some i → i < s.length := by
  intro s
  induction s with
  | nil => intro i h; simp [findOcc] at h
  | cons c rest ih =>
    intro i h
    rw [findOcc] at h
    cases hb : sep.isPrefixOf (c :: rest) with
    | true => rw [hb] at h; simp at h; simp [List.length_cons]; omega
    | false =>
      rw [hb] at h
      simp at h
      obtain ⟨a, ha, rfl⟩ := h
      have := ih a ha
      simp [List.length_cons]
      omega

theorem occ_le_length (sep s : List Char) (i : Nat) (hsep : sep ≠ [])
    (h : sep.isPrefixOf (s.drop i) = true) : i + sep.length ≤ s.length := by
  have hpre : sep <+: s.drop i := List.isPrefixOf_iff_prefix.mp h
  have h1 : sep.length ≤ (s.drop i).length := hpre.length_le
  rw [List.length_drop] at h1
  by_cases hi : i ≤ s.length
  · omega
  · exfalso
    have hd : s.drop i = [] := List.drop_eq_nil_of_le (by omega)
    rw [hd] at hpre
    exact hsep (List.prefix_nil.mp hpre)

theorem occ_decomp (sep s : List Char) (i : Nat)
    (h : sep.isPrefixOf (s.drop i) = true) :
    s = s.take i ++ sep ++ s.drop (i + sep.length) := by
  obtain ⟨r, hr⟩ := List.isPrefixOf_iff_prefix.mp h
  have hr2 : s.drop (i + sep.length) = r := by
    rw [← List.drop_drop, ← hr, List.drop_left]
  calc s = s.take i ++ s.drop i := (List.take_append_drop i s).symm
    _ = s.take i ++ (sep ++ r) := by rw [← hr]
    _ = s.take i ++ sep ++ s.drop (i + sep.length) := by rw [hr2, List.append_assoc]

theorem no_occ_in_take (sep s : List Char) (i : Nat) (hsep : sep ≠ [])
    (hmin : ∀ j, j < i → sep.isPrefixOf (s.drop j) = false) :
    ∀ j, sep.isPrefixOf ((s.take i).drop j) = false := by
  intro j
  by_cases hj : j < i
  · cases hb : sep.isPrefixOf ((s.take i).drop j) with
    | false => rfl
    | true =>
      exfalso
      have hpre : sep <+: (s.take i).drop j := List.isPrefixOf_iff_prefix.mp hb
      rw [List.drop_take] at hpre
      have hpre2 : sep <+: s.drop j := hpre.trans (List.take_prefix _ _)
      have hb2 := List.isPrefixOf_iff_prefix.mpr hpre2
      rw [hmin j hj] at hb2
      simp at hb2
  · have hd : (s.take i).drop j = [] := by
      apply List.drop_eq_nil_of_le
      rw [List.length_take]
      omega
    rw [hd]
    cases sep with
    | nil => exact absurd rfl hsep
    | cons a as => rfl

theorem occ_no_overlap (sep s : List Char) (i d : Nat) (hbf : borderFree sep)
    (h : sep.isPrefixOf (s.drop i) = true) (hd0 : 0 < d) (hdL : d < sep.length) :
    sep.isPrefixOf (s.drop (i + d)) = false := by
  cases hb : sep.isPrefixOf (s.drop (i + d)) with
  | false => rfl
  | true =>
    exfalso
    obtain ⟨r, hr⟩ := List.isPrefixOf_iff_prefix.mp h
    have hdrop : s.drop (i + d) = sep.drop d ++ r := by
      rw [← List.drop_drop, ← hr, List.drop_append_of_le_length (Nat.le_of_lt hdL)]
    have htrue : sep <+: sep.drop d ++ r := by
      rw [← hdrop]
      exact List.isPrefixOf_iff_prefix.mp hb
    have h2 : sep.drop d <+: sep :=
      List.prefix_of_prefix_length_le (List.prefix_append _ _) htrue
        (by rw [List.length_drop]; omega)
    exact hbf d hdL hd0 h2

theorem countOcc_eq_zero_of_no_occ (sep s : List Char)
    (h : ∀ j, sep.isPrefixOf (s.drop j) = false) : countOcc sep s = 0 := by
  unfold countOcc
  rw [List.countP_eq_zero]
  intro a _
  simp [h a]

theorem countOcc_step (sep s : List Char) (i : Nat) (hbf : borderFree sep) (hsep : sep ≠ [])
    (hocc : sep.isPrefixOf (s.drop i) = true)
    (hmin : ∀ j, j < i → sep.isPrefixOf (s.drop j) = false) :
    countOcc sep s = countOcc sep (s.drop (i + sep.length)) + 1 := by
  have hL : 0 < sep.length := List.length_pos.mpr hsep
  have hlen : i + sep.length ≤ s.length := occ_le_length sep s i hsep hocc
  have hsplit : s.length = ((i + 1) + (sep.length - 1)) + (s.drop (i + sep.length)).length := by
    rw [List.length_drop]; omega
  unfold countOcc
  rw [hsplit, List.range_add, List.countP_append, List.range_add, List.countP_append]
  have hp0 : (List.range (i + 1)).countP (fun j => sep.isPrefixOf (s.drop j)) = 1 := by
    rw [List.range_succ, List.countP_append]
    have hz : (List.range i).countP (fun j => sep.isPrefixOf (s.drop j)) = 0 := by
      rw [List.countP_eq_zero]
      intro a ha
      rw [List.mem_range] at ha
      simp [hmin a ha]
    rw [hz]
    simp [List.countP_cons, hocc]
  have hp1 : ((List.range (sep.length - 1)).map ((i + 1) + ·)).countP
      (fun j => sep.isPrefixOf (s.drop j)) = 0 := by
    rw [List.countP_map, List.countP_eq_zero]
    intro a ha
    rw [List.mem_range] at ha
    have hno := occ_no_overlap sep s i (a + 1) hbf hocc (by omega) (by omega)
    simp only [Function.comp_apply]
    rw [show (i + 1) + a = i + (a + 1) by omega]
    simp [hno]
  have hp2 : ((List.range ((s.drop (i + sep.length)).length)).map
        (((i + 1) + (sep.length - 1)) + ·)).countP
      (fun j => sep.isPrefixOf (s.drop j))
      = (List.range ((s.drop (i + sep.length)).length)).countP
          (fun j => sep.isPrefixOf ((s.drop (i + sep.length)).drop j)) := by
    rw [List.countP_map]
    apply List.countP_congr
    intro a ha
    have hidx : (i + 1) + (sep.length - 1) + a = (i + sep.length) + a := by omega
    simp only [Function.comp_apply, List.drop_drop]
    rw [hidx]
  rw [hp0, hp1, hp2]
  omega

theorem countOcc_sep_append (sep p : List Char) (hbf : borderFree sep) (hsep : sep ≠ [])
    (hp : countOcc sep p = 0) : countOcc sep (sep ++ p) = 1 := by
  have h0 : sep.isPrefixOf ((sep ++ p).drop 0) = true := by
    rw [List.drop_zero]
    exact List.isPrefixOf_iff_prefix.mpr (List.prefix_append _ _)
  have hstep := countOcc_step sep (sep ++ p) 0 hbf hsep h0
    (fun j hj => absurd hj (Nat.not_lt_zero j))
  rw [hstep, Nat.zero_add, List.drop_left, hp]

theorem splitOnLAux_ne_nil (sep : List Char) (fuel : Nat) (s : List Char) :
    splitOnLAux sep fuel s ≠ [] := by
  cases fuel with
  | zero => simp [splitOnLAux]
  | succ f =>
    rw [splitOnLAux]
    cases hf : findOcc sep s with
    | none => simp
    | some i => simp

theorem splitOnLAux_flatten (sep : List Char) (hsep : sep ≠ []) :
    ∀ (fuel : Nat) (s : List Char), s.length ≤ fuel →
      ((splitOnLAux sep fuel s).map (fun p => sep ++ p)).flatten = sep ++ s := by
  intro fuel
  induction fuel with
  | zero =>
    intro s hs
    have : s = [] := List.length_eq_zero.mp (Nat.le_zero.mp hs)
    subst this
    simp [splitOnLAux]
  | succ f ih =>
    intro s hs
    rw [splitOnLAux]
    cases hf : findOcc sep s with
    | none => simp
    | some i =>
      have hocc := findOcc_some_occ sep s i hf
      have hlt := findOcc_some_lt sep s i hf
      have hL : 0 < sep.length := List.length_pos.mpr hsep
      have hrec : (s.drop (i + sep.length)).length ≤ f := by
        rw [List.length_drop]; omega
      simp only [List.map_cons, List.flatten_cons]
      rw [ih (s.drop (i + sep.length)) hrec]
      conv_rhs => rw [occ_decomp sep s i hocc]
      simp [List.append_assoc]

theorem splitOnLAux_count (sep : List Char) (hbf : borderFree sep) (hsep : sep ≠ []) :
    ∀ (fuel : Nat) (s : List Char), s.length ≤ fuel →
      countOcc sep s + 1 = (splitOnLAux sep fuel s).length := by
  intro fuel
  induction fuel with
  | zero =>
    intro s hs
    have : s = [] := List.length_eq_zero.mp (Nat.le_zero.mp hs)
    subst this
    simp [splitOnLAux, countOcc]
  | succ f ih =>
    intro s hs
    rw [splitOnLAux]
    cases hf : findOcc sep s with
    | none =>
      rw [countOcc_eq_zero_of_no_occ sep s (findOcc_none_no_occ sep hsep s hf)]
      rfl
    | some i =>
      have hocc := findOcc_some_occ sep s i hf
      have hmin := findOcc_some_min sep s i hf
      have hlt := findOcc_some_lt sep s i hf
      have hL : 0 < sep.length := List.length_pos.mpr hsep
      have hrec : (s.drop (i + sep.length)).length ≤ f := by
        rw [List.length_drop]; omega
      rw [countOcc_step sep s i hbf hsep hocc hmin, List.length_cons,
        ← ih (s.drop (i + sep.length)) hrec]

theorem splitOnLAux_parts_no_occ (sep : List Char) (hsep : sep ≠ []) :
    ∀ (fuel : Nat) (s : List Char), s.length ≤ fuel →
      ∀ p ∈ splitOnLAux sep fuel s, countOcc sep p = 0 := by
  intro fuel
  induction fuel with
  | zero =>
    intro s hs p hp
    have : s = [] := List.length_eq_zero.mp (Nat.le_zero.mp hs)
    subst this
    simp [splitOnLAux] at hp
    subst hp
    simp [countOcc]
  | succ f ih =>
    intro s hs p hp
    rw [splitOnLAux] at hp
    cases hf : findOcc sep s with
    | none =>
      rw [hf] at hp
      simp at hp
      rw [hp]
      exact countOcc_eq_zero_of_no_occ sep s (findOcc_none_no_occ sep hsep s hf)
    | some i =>
      rw [hf] at hp
      simp only [List.mem_cons] at hp
      rcases hp with rfl | hp
      · exact countOcc_eq_zero_of_no_occ sep _
          (no_occ_in_take sep s i hsep (findOcc_some_min sep s i hf))
      · have hlt := findOcc_some_lt sep s i hf
        have hL : 0 < sep.length := List.length_pos.mpr hsep
        exact ih (s.drop (i + sep.length)) (by rw [List.length_drop]; omega) p hp

theorem splitOnL_head_flatten (sep : List Char) (hsep : sep ≠ []) (s : List Char) :
    (splitOnL sep s).headD [] ++ (((splitOnL sep s).drop 1).map (fun p => sep ++ p)).flatten
      = s := by
  unfold splitOnL
  cases hs : s.length with
  | zero =>
    have : s = [] := List.length_eq_zero.mp hs
    subst this
    simp [splitOnLAux]
  | succ n =>
    rw [splitOnLAux]
    cases hf : findOcc sep s with
    | none => simp
    | some i =>
      have hocc := findOcc_some_occ sep s i hf
      have hlt := findOcc_some_lt sep s i hf
      have hL : 0 < sep.length := List.length_pos.mpr hsep
      have hrec : (s.drop (i + sep.length)).length ≤ n := by
        rw [List.length_drop]; omega
      simp only [List.headD_cons, List.drop_one, List.tail_cons]
      rw [splitOnLAux_flatten sep hsep n (s.drop (i + sep.length)) hrec]
      conv_rhs => rw [occ_decomp sep s i hocc]
      simp [List.append_assoc]

theorem header_borderFree : borderFree CHUNK_HEADER := by
  show ∀ d, d < CHUNK_HEADER.length → 0 < d → ¬ (CHUNK_HEADER.drop d <+: CHUNK_HEADER)
  decide

theorem header_ne_nil : CHUNK_HEADER ≠ [] := by decide

/-- C3: for a diff with exactly k occurrences of the per-file header,
`split_diff_by_file` returns exactly k chunks, each beginning with the header
and containing exactly one header occurrence; concatenating the chunks
reconstructs the diff with only the preamble before the first header removed
(and the preamble itself contains no header occurrence). -/
theorem split_diff_by_file_round_trip (diff : List Char) (k : Nat)
    (hk : countOcc CHUNK_HEADER diff = k) :
    (split_diff_by_file diff).length = k ∧
    (∀ c ∈ split_diff_by_file diff,
      CHUNK_HEADER.isPrefixOf c = true ∧ countOcc CHUNK_HEADER c = 1) ∧
    split_preamble diff ++ (split_diff_by_file diff).flatten = diff ∧
    countOcc CHUNK_HEADER (split_preamble diff) = 0 := by
  have hbf := header_borderFree
  have hne := header_ne_nil
  refine ⟨?_, ?_, ?_, ?_⟩
  · unfold split_diff_by_file splitOnL
    rw [List.length_map, List.length_drop,
      ← splitOnLAux_count CHUNK_HEADER hbf hne diff.length diff le_rfl, hk]
    omega
  · intro c hc
    unfold split_diff_by_file at hc
    rw [List.mem_map] at hc
    obtain ⟨p, hp, rfl⟩ := hc
    have hp' : p ∈ splitOnL CHUNK_HEADER diff := List.drop_subset 1 _ hp
    have hocc0 : countOcc CHUNK_HEADER p = 0 := by
      unfold splitOnL at hp'
      exact splitOnLAux_parts_no_occ CHUNK_HEADER hne diff.length diff le_rfl p hp'
    exact ⟨List.isPrefixOf_iff_prefix.mpr (List.prefix_append _ _),
      countOcc_sep_append CHUNK_HEADER p hbf hne hocc0⟩
  · unfold split_diff_by_file split_preamble
    exact splitOnL_head_flatten CHUNK_HEADER hne diff
  · unfold split_preamble
    have hnn := splitOnLAux_ne_nil CHUNK_HEADER diff.length diff
    cases hparts : splitOnL CHUNK_HEADER diff with
    | nil => exact absurd hparts hnn
    | cons a t =>
      have ha : a ∈ splitOnL CHUNK_HEADER diff := by rw [hparts]; exact List.mem_cons_self a t
      rw [List.headD_cons]
      unfold splitOnL at ha
      exact splitOnLAux_parts_no_occ CHUNK_HEADER hne diff.length diff le_rfl a ha

/-- Witness for C3 on a two-file diff with a preamble, k = 2. -/
theorem split_diff_by_file_round_trip_witness :
    countOcc CHUNK_HEADER (("pre\ndiff --git a/x b/x\n+1\ndiff --git a/y b/y\n-2\n").toList)
      = 2 ∧
    ((split_diff_by_file
        (("pre\ndiff --git a/x b/x\n+1\ndiff --git a/y b/y\n-2\n").toList)).length = 2 ∧
     (∀ c ∈ split_diff_by_file
        (("pre\ndiff --git a/x b/x\n+1\ndiff --git a/y b/y\n-2\n").toList),
        CHUNK_HEADER.isPrefixOf c = true ∧ countOcc CHUNK_HEADER c = 1) ∧
     split_preamble (("pre\ndiff --git a/x b/x\n+1\ndiff --git a/y b/y\n-2\n").toList)
        ++ (split_diff_by_file
            (("pre\ndiff --git a/x b/x\n+1\ndiff --git a/y b/y\n-2\n").toList)).flatten
       = (("pre\ndiff --git a/x b/x\n+1\ndiff --git a/y b/y\n-2\n").toList) ∧
     countOcc CHUNK_HEADER
        (split_preamble (("pre\ndiff --git a/x b/x\n+1\ndiff --git a/y b/y\n-2\n").toList))
       = 0) :=
  ⟨by decide,
    split_diff_by_file_round_trip
      (("pre\ndiff --git a/x b/x\n+1\ndiff --git a/y b/y\n-2\n").toList) 2 (by decide)⟩

end AiAutoCommit
